import Mathlib

/-!
Shallow embedding of the filing-selection and retrieval pipeline of
sec-downloader-go (package pkg/sec).

Each Go file in the repository snapshot pairs two revisions of the same
source.  Where the two revisions of orchestrator.go diverge (the 18-digit
accession check in GetToDownload, skip-versus-abort behaviour in
AggregateFilingsToDownload and FetchAndSaveFilings, the details-suffix
derivation), the definitions below follow the documented revision: it is
the one the repository's own orchestrator tests exercise (TestGetToDownload
demands an error for a malformed accession number) and the only one that
implements the details download advertised in the README.

The network boundary (SECClient) and the disk write (SaveDocument) are
modelled as deterministic response oracles.  The repository's constants
file is not part of the snapshot; the handful of constants it must define
are modelled from the spec and marked as such.
-/

/-- ASCII upper-casing of one character, as Go strings.ToUpper acts on the
ASCII letters that form types and tickers are made of. -/
def upChar (c : Char) : Char :=
  if 97 ≤ c.toNat ∧ c.toNat ≤ 122 then Char.ofNat (c.toNat - 32) else c

/-- ASCII lower-casing of one character, as Go strings.ToLower acts on
ASCII letters. -/
def lowChar (c : Char) : Char :=
  if 65 ≤ c.toNat ∧ c.toNat ≤ 90 then Char.ofNat (c.toNat + 32) else c

/-- ASCII upper-casing of a string (Go strings.ToUpper on ASCII input). -/
def upStr (s : String) : String := ⟨s.data.map upChar⟩

/-- ASCII lower-casing of a string (Go strings.ToLower on ASCII input). -/
def lowStr (s : String) : String := ⟨s.data.map lowChar⟩

/-- Case-insensitive string equality: Go strings.EqualFold restricted to
the ASCII strings this package compares. -/
def eqFold (a b : String) : Bool := upStr a == upStr b

/-- Go strings.HasSuffix. -/
def strEndsWith (s suffix : String) : Bool := suffix.data.isSuffixOf s.data

/-- Go strings.TrimSuffix: drop the suffix when present, else return the
string unchanged. -/
def trimSuffix (s suffix : String) : String :=
  if strEndsWith s suffix then ⟨s.data.take (s.data.length - suffix.data.length)⟩ else s

/-- Go strings.ReplaceAll(s, "-", ""): drop every hyphen. -/
def removeDashes (s : String) : String := ⟨s.data.filter (fun c => c ≠ '-')⟩

/-- Decimal digit test on a character (byte range 48-57). -/
def isDigitCh (c : Char) : Bool := 48 ≤ c.toNat && c.toNat ≤ 57

/-- Whitespace test covering the ASCII space characters Go
strings.TrimSpace removes from the inputs this package sees. -/
def isSpaceCh (c : Char) : Bool := c = ' ' || c = '\t' || c = '\n' || c = '\r'

/-- Go strings.TrimSpace on ASCII input. -/
def trimSpace (s : String) : String :=
  ⟨((s.data.dropWhile isSpaceCh).reverse.dropWhile isSpaceCh).reverse⟩

/-- Value of a string of decimal digits, most significant first, folded
onto an accumulator. -/
def digitsToNatAux (acc : Nat) : List Char → Nat
  | [] => acc
  | c :: cs => digitsToNatAux (acc * 10 + (c.toNat - 48)) cs

/-- Value of a string of decimal digits. -/
def digitsToNat (cs : List Char) : Nat := digitsToNatAux 0 cs

/-- Helper for splitting a character list on hyphens. -/
def splitDashAux : List Char → List Char → List (List Char)
  | [], acc => [acc.reverse]
  | c :: rest, acc =>
    if c = '-' then acc.reverse :: splitDashAux rest []
    else splitDashAux rest (c :: acc)

/-- Split a character list on every hyphen. -/
def splitDash (cs : List Char) : List (List Char) := splitDashAux cs []

/-- Calendar date with no time component, the payload of Go time.Time
values this package compares (all parsed at midnight UTC). -/
structure Date where
  year : Nat
  month : Nat
  day : Nat
deriving DecidableEq, Repr

/-- Numeric key whose order coincides with Go time.Time order on
calendar dates: lexicographic on (year, month, day). -/
def Date.key (d : Date) : Nat := d.year * 10000 + d.month * 100 + d.day

/-- Go time.Time.Before on two calendar dates. -/
def dateBefore (a b : Date) : Bool := a.key < b.key

/-- The date test of the matcher: Go skips a filing when
filingDate.Before(metadata.After) or filingDate.After(metadata.Before);
a record is kept when neither holds (both bounds inclusive). -/
def dateInRange (after before d : Date) : Bool :=
  !(dateBefore d after) && !(dateBefore before d)

/-- Gregorian leap-year rule, as Go time uses for date validation. -/
def isLeapYear (y : Nat) : Bool := y % 4 == 0 && (y % 100 != 0 || y % 400 == 0)

/-- Number of days in a month, as Go time uses for date validation. -/
def daysInMonth (y m : Nat) : Nat :=
  if m = 2 then (if isLeapYear y then 29 else 28)
  else if m = 4 ∨ m = 6 ∨ m = 9 ∨ m = 11 then 30
  else 31

/-- Go time.Parse with the package's DateFormat layout (YYYY-MM-DD
exactly): four digit year, two digit month, two digit day, hyphen
separated, month and day in calendar range.  Returns none exactly when
Go returns a parse error. -/
def parseDate (s : String) : Option Date :=
  match splitDash s.data with
  | [ys, ms, ds] =>
    if ys.length = 4 ∧ ms.length = 2 ∧ ds.length = 2 ∧
       ys.all isDigitCh ∧ ms.all isDigitCh ∧ ds.all isDigitCh then
      let y := digitsToNat ys
      let m := digitsToNat ms
      let d := digitsToNat ds
      if 1 ≤ m ∧ m ≤ 12 ∧ 1 ≤ d ∧ d ≤ daysInMonth y m then some ⟨y, m, d⟩ else none
    else none
  | _ => none

/-- Modelled from the spec: the repository's constants file is not in the
snapshot; the amendment suffix appended to a base form type is "/A". -/
def AmendsSuffix : String := "/A"

/-- Modelled from the spec: canonical registry keys are zero-padded to a
fixed maximum of 10 digits. -/
def CIKLength : Nat := 10

/-- Modelled from the spec: root folder name of the on-disk layout
(README shows sec-edgar-filings). -/
def RootSaveFolderName : String := "sec-edgar-filings"

/-- Modelled from the spec: filename under which a filing's index
document is persisted (README layout shows index.html). -/
def FilingFullSubmissionFilename : String := "index.html"

/-- Modelled from the spec: the supported-forms gate is a set keyed by
canonical upper-case form types (README names 10-K, 10-Q, 8-K among
them); membership is an exact, case-sensitive lookup. -/
def SupportedForms (form : String) : Bool :=
  form ∈ ["10-K", "10-Q", "8-K", "4", "3", "5", "S-1", "DEF 14A", "13F-HR", "SC 13G", "20-F"]

/-- Modelled from the spec: default inclusive lower bound of the
full-history date window. -/
def DefaultAfterDate : Date := ⟨1994, 1, 1⟩

/-- Modelled from the spec: default inclusive upper bound of the
full-history date window. -/
def DefaultBeforeDate : Date := ⟨9999, 12, 31⟩

/-- Modelled from the spec: URL of a filing's index document under the
archive root: archive-root / key / accession-without-hyphens /
accession-verbatim + "-index.htm". -/
def URLFilingArchive (cik rawAccNum accNum : String) : String :=
  "https://www.sec.gov/Archives/edgar/data/" ++ cik ++ "/" ++ rawAccNum ++ "/" ++ accNum ++ "-index.htm"

/-- Modelled from the spec: URL of one document of a filing:
archive-root / key / accession-without-hyphens / filename. -/
def URLFiling (cik rawAccNum filename : String) : String :=
  "https://www.sec.gov/Archives/edgar/data/" ++ cik ++ "/" ++ rawAccNum ++ "/" ++ filename

/-- Modelled from the spec: URL of the submissions (filing history)
document for a canonical key. -/
def submissionsURL (cik : String) : String :=
  "https://data.sec.gov/submissions/CIK" ++ cik ++ ".json"

/-- Largest value of a 64-bit Go int, the bound of strconv.Atoi. -/
def int64MaxNat : Nat := 9223372036854775807

/-- One row of the registry's filing history: the parallel arrays of
SubmissionData.Filings.Recent (accessionNumber, filingDate, form,
primaryDocument) read at one row index. -/
structure FilingRecord where
  AccessionNumber : String
  FilingDate : String
  Form : String
  PrimaryDocument : String
deriving DecidableEq, Repr

/-- The decoded filing-history document: company key plus the recent
filings table, rows in registry order. -/
structure SubmissionData where
  CIK : String
  Recent : List FilingRecord
deriving DecidableEq, Repr

/-- ToDownload, the matched-filing descriptor built by GetToDownload. -/
structure ToDownload where
  RawFilingURI : String
  PrimaryDocURI : String
  AccessionNumber : String
  DetailsDocSuffix : String
deriving DecidableEq, Repr

/-- DownloadMetadata, the per-call filter specification and context. -/
structure DownloadMetadata where
  DownloadFolder : String
  Form : String
  CIK : String
  Limit : Nat
  After : Date
  Before : Date
  IncludeAmends : Bool
  DownloadDetails : Bool
  Ticker : String
  AccessionNumbersToSkip : List String
deriving DecidableEq, Repr

/-- SECClient with its two network operations modelled as deterministic
response oracles (the rate limiter and headers have no bearing on the
values returned, which is all the claims below depend on). -/
structure SECClient where
  GetListOfAvailableFilings : String → Except String SubmissionData
  DownloadFiling : String → Except String (List Nat)

/-- The form-type test of the matcher: a record matches when its form
equals the requested form case-insensitively, or amendments are included
and it equals the requested form with the amendment suffix appended,
case-insensitively.  Direct transcription of the skip condition in
AggregateFilingsToDownload. -/
def formMatches (specForm : String) (includeAmends : Bool) (form : String) : Bool :=
  eqFold form specForm || (includeAmends && eqFold form (specForm ++ AmendsSuffix))

/-- The details-document suffix computed inside GetToDownload: the fixed
suffix for the exact primary-document.html name, the stripped basename
plus "-index-headers.html" for names ending in .htm or .html
(case-insensitively), empty otherwise. -/
def detailsDocSuffixOf (doc : String) : String :=
  if eqFold doc "primary-document.html" then "-index-headers.html"
  else if strEndsWith (lowStr doc) ".htm" || strEndsWith (lowStr doc) ".html" then
    trimSuffix (trimSuffix doc ".htm") ".html" ++ "-index-headers.html"
  else ""

/-- The descriptor GetToDownload returns on success: index URI from the
de-hyphenated accession number, primary URI only when a primary document
filename is present, the accession number verbatim, and the details
suffix. -/
def mkToDownload (cik accNum doc : String) : ToDownload :=
  { RawFilingURI := URLFilingArchive cik (removeDashes accNum) accNum
    PrimaryDocURI := if doc ≠ "" then URLFiling cik (removeDashes accNum) doc else ""
    AccessionNumber := accNum
    DetailsDocSuffix := detailsDocSuffixOf doc }

/-- GetToDownload: fails when the accession number does not reduce to
exactly 18 digits after hyphen removal, otherwise builds the
descriptor. -/
def GetToDownload (cik accNum doc : String) : Except String ToDownload :=
  if (removeDashes accNum).length ≠ 18 then
    .error ("invalid accession number: " ++ accNum)
  else .ok (mkToDownload cik accNum doc)

/-- The filtering loop of AggregateFilingsToDownload.  The fuel argument
is the remaining capacity (metadata.Limit minus matches already
accumulated): the Go loop runs while the accumulated list is shorter
than the limit.  Form test, date test (records whose date does not parse
are skipped), exclusion test, then descriptor construction, whose
failure aborts the whole match. -/
def aggLoop (md : DownloadMetadata) : List FilingRecord → Nat → Except String (List ToDownload)
  | [], _ => .ok []
  | _ :: _, 0 => .ok []
  | r :: rest, fuel + 1 =>
    if formMatches md.Form md.IncludeAmends r.Form then
      match parseDate r.FilingDate with
      | none => aggLoop md rest (fuel + 1)
      | some d =>
        if dateInRange md.After md.Before d then
          if md.AccessionNumbersToSkip.contains r.AccessionNumber then
            aggLoop md rest (fuel + 1)
          else
            match GetToDownload md.CIK r.AccessionNumber r.PrimaryDocument with
            | .error e =>
              .error ("failed to get download URL for accession number " ++ r.AccessionNumber ++ ": " ++ e)
            | .ok td =>
              match aggLoop md rest fuel with
              | .error e => .error e
              | .ok tds => .ok (td :: tds)
        else aggLoop md rest (fuel + 1)
    else aggLoop md rest (fuel + 1)

/-- AggregateFilingsToDownload: fetch the filing history, then filter it
with the loop above. -/
def AggregateFilingsToDownload (md : DownloadMetadata) (client : SECClient) :
    Except String (List ToDownload) :=
  match client.GetListOfAvailableFilings (submissionsURL md.CIK) with
  | .error e => .error ("failed to get list of available filings: " ++ e)
  | .ok sd => aggLoop md sd.Recent md.Limit

/-- The combined record-level filter of the matcher (form test, date
test on a parseable in-range date, exclusion test), used to state what
the loop keeps. -/
def passesFilters (md : DownloadMetadata) (r : FilingRecord) : Bool :=
  formMatches md.Form md.IncludeAmends r.Form &&
  (match parseDate r.FilingDate with
   | some d => dateInRange md.After md.Before d
   | none => false) &&
  !(md.AccessionNumbersToSkip.contains r.AccessionNumber)

/-- GetSaveLocation: the deterministic on-disk path for one document of
one filing (filepath.Join modelled as slash interposition). -/
def GetSaveLocation (md : DownloadMetadata) (accessionNumber saveFilename : String) : String :=
  String.intercalate "/"
    [md.DownloadFolder, RootSaveFolderName,
     (if md.Ticker = "" then md.CIK else md.Ticker),
     md.Form, accessionNumber, saveFilename]

/-- Success of step (a) for one descriptor: the index document is
fetched and persisted.  The save oracle mirrors SaveDocument(contents,
savePath). -/
def indexFetchAndSaveOk (md : DownloadMetadata) (client : SECClient)
    (save : List Nat → String → Except String Unit) (td : ToDownload) : Bool :=
  match client.DownloadFiling td.RawFilingURI with
  | .error _ => false
  | .ok contents =>
    match save contents (GetSaveLocation md td.AccessionNumber FilingFullSubmissionFilename) with
    | .error _ => false
    | .ok _ => true

/-- The download loop of FetchAndSaveFilings: for each descriptor, fetch
and save the index document, skipping the filing (without error) when
either part fails; then best-effort primary and details downloads whose
outcomes never affect the count; count the filing once the index
document is saved. -/
def downloadLoop (md : DownloadMetadata) (client : SECClient)
    (save : List Nat → String → Except String Unit) : List ToDownload → Nat
  | [] => 0
  | td :: rest =>
    match client.DownloadFiling td.RawFilingURI with
    | .error _ => downloadLoop md client save rest
    | .ok contents =>
      match save contents (GetSaveLocation md td.AccessionNumber FilingFullSubmissionFilename) with
      | .error _ => downloadLoop md client save rest
      | .ok _ =>
        let _primary :=
          if td.PrimaryDocURI ≠ "" then
            match client.DownloadFiling td.PrimaryDocURI with
            | .ok c => (save c (GetSaveLocation md td.AccessionNumber FilingFullSubmissionFilename)).toOption
            | .error _ => none
          else none
        let _details :=
          if md.DownloadDetails && td.DetailsDocSuffix ≠ "" then
            (client.DownloadFiling
              (URLFiling md.CIK (removeDashes td.AccessionNumber)
                (removeDashes td.AccessionNumber ++ td.DetailsDocSuffix))).toOption
          else none
        downloadLoop md client save rest + 1

/-- FetchAndSaveFilings: aggregate the filings to download (failures
here are fatal), then run the partial-failure-tolerant download loop and
return the success count. -/
def FetchAndSaveFilings (md : DownloadMetadata) (client : SECClient)
    (save : List Nat → String → Except String Unit) : Except String Nat :=
  match AggregateFilingsToDownload md client with
  | .error e => .error ("failed to aggregate filings to download: " ++ e)
  | .ok toDownload => .ok (downloadLoop md client save toDownload)

/-- Digits-only body of strconv.Atoi: some value when the character list
is non-empty and all digits. -/
def atoiDigits (cs : List Char) : Option Nat :=
  if cs.isEmpty then none
  else if cs.all isDigitCh then some (digitsToNat cs) else none

/-- Go strconv.Atoi on a 64-bit platform: optional sign, decimal digits,
value within the int64 range. -/
def atoi (s : String) : Option Int :=
  match s.data with
  | [] => none
  | c :: rest =>
    if c = '+' then
      (atoiDigits rest).bind (fun n => if n ≤ int64MaxNat then some (Int.ofNat n) else none)
    else if c = '-' then
      (atoiDigits rest).bind (fun n => if n ≤ int64MaxNat + 1 then some (-(Int.ofNat n)) else none)
    else
      (atoiDigits (c :: rest)).bind (fun n => if n ≤ int64MaxNat then some (Int.ofNat n) else none)

/-- IsCIK: the input is a numeric key when strconv.Atoi accepts it. -/
def IsCIK (tickerOrCIK : String) : Bool := (atoi tickerOrCIK).isSome

/-- Left zero-padding to 10 characters, Go fmt.Sprintf with the %010s
verb (strings at least 10 characters long are returned unchanged). -/
def zeroPad10 (s : String) : String := ⟨List.replicate (10 - s.data.length) '0' ++ s.data⟩

/-- Association-list lookup modelling the Go ticker-to-CIK map. -/
def lookupAssoc (m : List (String × String)) (k : String) : Option String :=
  match m with
  | [] => none
  | (k0, v) :: rest => if k0 = k then some v else lookupAssoc rest k

/-- ValidateAndConvertTickerOrCIK: upper-case and trim, reject blank
input, zero-pad numeric keys of at most 10 digits and reject longer
ones, otherwise resolve the symbol through the mapping. -/
def ValidateAndConvertTickerOrCIK (tickerOrCIK : String)
    (tickerToCIKMapping : List (String × String)) : Except String String :=
  let t := trimSpace (upStr tickerOrCIK)
  if t = "" then .error "invalid ticker or CIK: please enter a non-blank value"
  else if IsCIK t then
    if t.length > CIKLength then
      .error "invalid CIK: CIKs must be at most 10 digits long"
    else .ok (zeroPad10 t)
  else
    match lookupAssoc tickerToCIKMapping t with
    | some cik => .ok cik
    | none =>
      .error ("ticker " ++ t ++ " is invalid and cannot be mapped to a CIK: please enter a valid ticker or CIK")

/-- Dynamic date argument of the legacy API: a Go interface value that
is either a time.Time, a string, or a value of any other type. -/
inductive DateInput where
  | timeValue (d : Date)
  | stringValue (s : String)
  | otherValue
deriving DecidableEq, Repr

/-- ValidateAndParseDate: pass time values through, parse strings with
the YYYY-MM-DD layout, reject every other type. -/
def ValidateAndParseDate : DateInput → Except String Date
  | .timeValue d => .ok d
  | .stringValue s =>
    match parseDate s with
    | some d => .ok d
    | none => .error "incorrect date format: please enter a date string of the form YYYY-MM-DD"
  | .otherValue => .error "incorrect date input: must be of type string or time.Time"

/-- The functional option type of the downloader. -/
abbrev DownloadOption := DownloadMetadata → DownloadMetadata

/-- Largest 32-bit Go int, the unbounded sentinel for Limit. -/
def maxInt32 : Nat := 2147483647

/-- WithLimit: positive limits are taken as given, anything else means
effectively unlimited. -/
def WithLimit (limit : Int) : DownloadOption := fun md =>
  if limit > 0 then { md with Limit := limit.toNat } else { md with Limit := maxInt32 }

/-- WithDateRange: each non-nil bound that validates replaces the
corresponding field; a bound that fails validation is silently ignored
and the field keeps its previous value. -/
def WithDateRange (after before : Option DateInput) : DownloadOption := fun md =>
  let md1 :=
    match after with
    | none => md
    | some a =>
      match ValidateAndParseDate a with
      | .ok d => { md with After := d }
      | .error _ => md
  match before with
  | none => md1
  | some b =>
    match ValidateAndParseDate b with
    | .ok d => { md1 with Before := d }
    | .error _ => md1

/-- WithIncludeAmends. -/
def WithIncludeAmends (includeAmends : Bool) : DownloadOption := fun md =>
  { md with IncludeAmends := includeAmends }

/-- WithDownloadDetails. -/
def WithDownloadDetails (downloadDetails : Bool) : DownloadOption := fun md =>
  { md with DownloadDetails := downloadDetails }

/-- WithAccessionNumbersToSkip. -/
def WithAccessionNumbersToSkip (accessionNumbersToSkip : List String) : DownloadOption := fun md =>
  { md with AccessionNumbersToSkip := accessionNumbersToSkip }

/-- Downloader: the session-scoped client, download folder, and the
symbol table fetched once at construction. -/
structure Downloader where
  client : SECClient
  downloadFolder : String
  tickerToCIKMap : List (String × String)

/-- GetWithOptions: gate on the supported-forms set (exact, case
sensitive), resolve the identifier, build the default metadata, apply
the options, record the ticker for non-numeric inputs, and run the
orchestrator.  The save oracle stands for the disk-writing
collaborator. -/
def GetWithOptions (d : Downloader) (save : List Nat → String → Except String Unit)
    (form tickerOrCIK : String) (options : List DownloadOption) : Except String Nat :=
  if SupportedForms form = false then .error ("form " ++ form ++ " is not supported")
  else
    match ValidateAndConvertTickerOrCIK tickerOrCIK d.tickerToCIKMap with
    | .error e => .error ("invalid ticker or CIK: " ++ e)
    | .ok cik =>
      let metadata : DownloadMetadata :=
        { DownloadFolder := d.downloadFolder
          Form := form
          CIK := cik
          Limit := maxInt32
          After := DefaultAfterDate
          Before := DefaultBeforeDate
          IncludeAmends := false
          DownloadDetails := false
          Ticker := ""
          AccessionNumbersToSkip := [] }
      let metadata := options.foldl (fun m o => o m) metadata
      let metadata :=
        if IsCIK tickerOrCIK = false then { metadata with Ticker := upStr tickerOrCIK }
        else metadata
      FetchAndSaveFilings metadata d.client save

/-- Get, the legacy entry point: assembles the option list and delegates
to GetWithOptions. -/
def Get (d : Downloader) (save : List Nat → String → Except String Unit)
    (form tickerOrCIK : String) (limit : Int) (after before : Option DateInput)
    (includeAmends downloadDetails : Bool)
    (accessionNumbersToSkip : Option (List String)) : Except String Nat :=
  GetWithOptions d save form tickerOrCIK
    ([WithLimit limit, WithDateRange after before,
      WithIncludeAmends includeAmends, WithDownloadDetails downloadDetails] ++
     (match accessionNumbersToSkip with
      | some skip => [WithAccessionNumbersToSkip skip]
      | none => []))

/-- Helper scan for the file extension: walk the reversed character
list, return everything from the final dot when one precedes any path
separator. -/
def extScan : List Char → List Char → String
  | [], _ => ""
  | c :: rest, seen =>
    if c = '/' then ""
    else if c = '.' then ⟨'.' :: seen⟩
    else extScan rest (c :: seen)

/-- Go path/filepath.Ext: the suffix of the final path element starting
at its final dot, empty when the element has no dot.  This is the
extension rule the first orchestrator.go revision applies to the details
suffix. -/
def filepathExt (s : String) : String := extScan s.data.reverse []

/-- Save oracle that always succeeds. -/
def saveAlwaysOk : List Nat → String → Except String Unit := fun _ _ => .ok ()

/-- Three matched 10-K rows for the partial-failure scenario. -/
def recC1a : FilingRecord := ⟨"0000320193-22-000001", "2022-03-01", "10-K", ""⟩

/-- Second row of the partial-failure scenario. -/
def recC1b : FilingRecord := ⟨"0000320193-22-000002", "2022-06-01", "10-K", ""⟩

/-- Third row of the partial-failure scenario. -/
def recC1c : FilingRecord := ⟨"0000320193-22-000003", "2022-09-01", "10-K", ""⟩

/-- Metadata for the partial-failure scenario. -/
def mdC1w : DownloadMetadata :=
  ⟨"downloads", "10-K", "0000320193", 100, ⟨2022, 1, 1⟩, ⟨2022, 12, 31⟩, false, false, "AAPL", []⟩

/-- The three descriptors the matcher produces in the partial-failure
scenario. -/
def tdsC1w : List ToDownload :=
  [mkToDownload "0000320193" "0000320193-22-000001" "",
   mkToDownload "0000320193" "0000320193-22-000002" "",
   mkToDownload "0000320193" "0000320193-22-000003" ""]

/-- Client whose index fetch for the first filing fails with a simulated
HTTP 500 and succeeds for every other URI. -/
def clientC1w : SECClient :=
  ⟨fun _ => .ok ⟨"0000320193", [recC1a, recC1b, recC1c]⟩,
   fun uri =>
     if uri = (mkToDownload "0000320193" "0000320193-22-000001" "").RawFilingURI then
       .error "HTTP error 500 for first index document"
     else .ok [60]⟩

/-- Metadata for the malformed-accession scenarios (large limit). -/
def mdC2e : DownloadMetadata :=
  ⟨"downloads", "10-K", "0000320193", 100, ⟨2020, 1, 1⟩, ⟨2030, 1, 1⟩, false, false, "", []⟩

/-- A row that passes every filter but carries the accession number
abc. -/
def recC2bad : FilingRecord := ⟨"abc", "2022-04-01", "10-K", ""⟩

/-- Client returning one history row with the malformed accession
number. -/
def clientC2e : SECClient :=
  ⟨fun _ => .ok ⟨"0000320193", [recC2bad]⟩, fun _ => .ok []⟩

/-- Metadata with limit 1 for the limit-fills-before-the-bad-row case. -/
def mdC2w : DownloadMetadata :=
  ⟨"downloads", "10-K", "0000320193", 1, ⟨2020, 1, 1⟩, ⟨2030, 1, 1⟩, false, false, "", []⟩

/-- A well-formed matching row scanned before the malformed one. -/
def recC2good : FilingRecord := ⟨"0000320193-22-000001", "2022-03-01", "10-K", ""⟩

/-- History with the good row first, the malformed row second. -/
def recentC2w : List FilingRecord := [recC2good, recC2bad]

/-- The single-descriptor output of the limit-1 run. -/
def outC2w : List ToDownload := [mkToDownload "0000320193" "0000320193-22-000001" ""]

/-- Metadata for the unparseable-date scenario. -/
def mdC3w : DownloadMetadata :=
  ⟨"downloads", "10-K", "0000320193", 100, ⟨2020, 1, 1⟩, ⟨2030, 1, 1⟩, false, false, "", []⟩

/-- A row whose filing date does not parse. -/
def recC3bad : FilingRecord := ⟨"0000320193-22-000009", "not-a-date", "10-K", ""⟩

/-- A well-formed row following the dirty one. -/
def recC3good : FilingRecord := ⟨"0000320193-22-000010", "2022-03-01", "10-K", ""⟩

/-- Metadata whose date range is empty (lower bound after upper
bound). -/
def mdC5w : DownloadMetadata :=
  ⟨"downloads", "10-K", "0000320193", 100, ⟨2023, 1, 1⟩, ⟨2022, 1, 1⟩, false, false, "", []⟩

/-- A row that would match any sane range. -/
def recC5w : FilingRecord := ⟨"0000320193-22-000001", "2022-06-15", "10-K", ""⟩

/-- Metadata of the end-to-end limit scenario: form 10-K, amendments
included, window 2022-01-01 to 2023-12-31, limit 2. -/
def mdC6w : DownloadMetadata :=
  ⟨"downloads", "10-K", "0000320193", 2, ⟨2022, 1, 1⟩, ⟨2023, 12, 31⟩, true, false, "", []⟩

/-- First 10-K row of the limit scenario. -/
def recC6a : FilingRecord := ⟨"0000320193-22-000001", "2022-03-01", "10-K", "a1.htm"⟩

/-- Second 10-K row of the limit scenario. -/
def recC6b : FilingRecord := ⟨"0000320193-23-000002", "2023-03-01", "10-K", "a2.htm"⟩

/-- Trailing amendment row the limit stops before. -/
def recC6c : FilingRecord := ⟨"0000320193-23-000003", "2023-06-01", "10-K/A", "a3.htm"⟩

/-- The three-row history of the limit scenario. -/
def recentC6w : List FilingRecord := [recC6a, recC6b, recC6c]

/-- Client that fails loudly if any network call is attempted. -/
def clientC9w : SECClient :=
  ⟨fun _ => .error "no network call expected", fun _ => .error "no network call expected"⟩

/-- Downloader for the unsupported-form gate scenario. -/
def downloaderC9w : Downloader := ⟨clientC9w, "downloads", [("AAPL", "0000320193")]⟩

/-- Metadata whose current bounds the invalid date inputs must
preserve. -/
def mdC10w : DownloadMetadata :=
  ⟨"downloads", "10-K", "0000320193", 100, ⟨2000, 1, 1⟩, ⟨2001, 1, 1⟩, false, false, "", []⟩

lemma getToDownload_ok (cik accNum doc : String) (h : (removeDashes accNum).length = 18) :
    GetToDownload cik accNum doc = .ok (mkToDownload cik accNum doc) := by
  unfold GetToDownload
  simp [h]

lemma getToDownload_error (cik accNum doc : String) (h : (removeDashes accNum).length ≠ 18) :
    GetToDownload cik accNum doc = .error ("invalid accession number: " ++ accNum) := by
  unfold GetToDownload
  simp [h]

lemma dateInRange_iff (after before d : Date) :
    dateInRange after before d = true ↔ (after.key ≤ d.key ∧ d.key ≤ before.key) := by
  simp [dateInRange, dateBefore, Nat.not_lt]

lemma aggLoop_nil (md : DownloadMetadata) (fuel : Nat) : aggLoop md [] fuel = .ok [] := rfl

lemma aggLoop_fuel_zero (md : DownloadMetadata) (recent : List FilingRecord) :
    aggLoop md recent 0 = .ok [] := by
  cases recent <;> rfl

/-- Claim C3: during matching, a record whose filing-date string does not
parse in the YYYY-MM-DD format is skipped and the scan continues over
the remaining records exactly as if the record were absent; in
particular such a record can never make the match return an error. -/
theorem aggregate_unparseable_date_skipped (md : DownloadMetadata) (fuel : Nat)
    (r : FilingRecord) (rest : List FilingRecord) (h : parseDate r.FilingDate = none) :
    aggLoop md (r :: rest) fuel = aggLoop md rest fuel := by
  cases fuel with
  | zero => cases rest <;> rfl
  | succ f =>
    by_cases hf : formMatches md.Form md.IncludeAmends r.Form = true
    · simp [aggLoop, hf, h]
    · simp [aggLoop, hf]

theorem aggregate_unparseable_date_skipped_witness :
    aggLoop mdC3w (recC3bad :: [recC3good]) 5 = aggLoop mdC3w [recC3good] 5 :=
  aggregate_unparseable_date_skipped mdC3w 5 recC3bad [recC3good] (by rfl)

/-- Claim C4: amendment policy of the form test — with includeAmends
false a 10-K/A record never matches a 10-K request and with it true it
does; forms that merely contain the requested form as a substring
(10-K405) or belong to another family (10-Q/A) never match either way;
and the comparison is case-insensitive: it depends only on the
upper-cased form, so the lower-cased spelling 10-k matches 10-K. -/
theorem formMatches_amendment_policy :
    (formMatches "10-K" false "10-K/A" = false) ∧
    (formMatches "10-K" true "10-K/A" = true) ∧
    (formMatches "10-K" false "10-K405" = false) ∧
    (formMatches "10-K" true "10-K405" = false) ∧
    (formMatches "10-K" false "10-Q/A" = false) ∧
    (formMatches "10-K" true "10-Q/A" = false) ∧
    (∀ (specForm : String) (includeAmends : Bool) (a b : String), upStr a = upStr b →
      formMatches specForm includeAmends a = formMatches specForm includeAmends b) ∧
    (formMatches "10-K" false "10-k" = true) := by
  refine ⟨by decide, by decide, by decide, by decide, by decide, by decide, ?_, by decide⟩
  intro specForm includeAmends a b hab
  simp [formMatches, eqFold, hab]

theorem formMatches_amendment_policy_witness :
    formMatches "10-K" true "10-k" = formMatches "10-K" true "10-K" :=
  formMatches_amendment_policy.2.2.2.2.2.2.1 "10-K" true "10-k" "10-K" (by decide)

lemma aggLoop_empty_range (md : DownloadMetadata) (h : md.Before.key < md.After.key) :
    ∀ (recent : List FilingRecord) (fuel : Nat), aggLoop md recent fuel = .ok []
  | [], fuel => aggLoop_nil md fuel
  | r :: rest, 0 => aggLoop_fuel_zero md (r :: rest)
  | r :: rest, fuel + 1 => by
    by_cases hf : formMatches md.Form md.IncludeAmends r.Form = true
    · cases hd : parseDate r.FilingDate with
      | none => simp [aggLoop, hf, hd, aggLoop_empty_range md h rest (fuel + 1)]
      | some d =>
        have hr : dateInRange md.After md.Before d = false := by
          cases hx : dateInRange md.After md.Before d with
          | false => rfl
          | true =>
            rcases (dateInRange_iff md.After md.Before d).mp hx with ⟨h1, h2⟩
            omega
        simp [aggLoop, hf, hd, hr, aggLoop_empty_range md h rest (fuel + 1)]
    · simp [aggLoop, hf, aggLoop_empty_range md h rest (fuel + 1)]

/-- Claim C5: a record with parseable filing date d passes the date test
iff After ≤ d ≤ Before with both bounds inclusive (a record dated
exactly on either bound passes, one dated a day outside either bound on
the package's own test window 2022-01-01..2022-12-31 fails), and a
specification whose lower bound lies strictly after its upper bound
makes the matcher return the empty sequence with no error, for every
history. -/
theorem matcher_date_bounds_inclusive :
    (dateInRange ⟨2022, 1, 1⟩ ⟨2022, 12, 31⟩ ⟨2022, 1, 1⟩ = true) ∧
    (dateInRange ⟨2022, 1, 1⟩ ⟨2022, 12, 31⟩ ⟨2022, 12, 31⟩ = true) ∧
    (dateInRange ⟨2022, 1, 1⟩ ⟨2022, 12, 31⟩ ⟨2021, 12, 31⟩ = false) ∧
    (dateInRange ⟨2022, 1, 1⟩ ⟨2022, 12, 31⟩ ⟨2023, 1, 1⟩ = false) ∧
    (∀ after before d : Date,
      dateInRange after before d = true ↔ (after.key ≤ d.key ∧ d.key ≤ before.key)) ∧
    (∀ (md : DownloadMetadata) (recent : List FilingRecord), md.Before.key < md.After.key →
      aggLoop md recent md.Limit = .ok []) :=
  ⟨by decide, by decide, by decide, by decide, dateInRange_iff,
   fun md recent h => aggLoop_empty_range md h recent md.Limit⟩

theorem matcher_date_bounds_inclusive_witness :
    aggLoop mdC5w [recC5w] mdC5w.Limit = .ok [] :=
  matcher_date_bounds_inclusive.2.2.2.2.2 mdC5w [recC5w] (by decide)

lemma passesFilters_decompose (md : DownloadMetadata) (r : FilingRecord)
    (hp : passesFilters md r = true) :
    formMatches md.Form md.IncludeAmends r.Form = true ∧
    (∃ d, parseDate r.FilingDate = some d ∧ dateInRange md.After md.Before d = true) ∧
    r.AccessionNumber ∉ md.AccessionNumbersToSkip := by
  simp only [passesFilters, Bool.and_eq_true, Bool.not_eq_true'] at hp
  refine ⟨hp.1.1, ?_, by simpa using hp.2⟩
  cases hd : parseDate r.FilingDate with
  | none => rw [hd] at hp; exact absurd hp.1.2 (by simp)
  | some d => rw [hd] at hp; exact ⟨d, rfl, hp.1.2⟩

lemma aggLoop_malformed_stops (md : DownloadMetadata) :
    ∀ (recent : List FilingRecord) (fuel : Nat) (out : List ToDownload) (r : FilingRecord),
      aggLoop md recent fuel = .ok out → r ∈ recent → passesFilters md r = true →
      (removeDashes r.AccessionNumber).length ≠ 18 → out.length = fuel
  | [], _, _, r, _, hmem, _, _ => absurd hmem (List.not_mem_nil r)
  | a :: rest, 0, out, r, h, _, _, _ => by
    rw [aggLoop_fuel_zero] at h
    cases h
    rfl
  | a :: rest, fuel + 1, out, r, h, hmem, hp, hbad => by
    rcases List.mem_cons.mp hmem with heq | hmem'
    · subst heq
      rcases passesFilters_decompose md r hp with ⟨hf, ⟨d, hd, hr⟩, hsk⟩
      simp [aggLoop, hf, hd, hr, hsk,
        getToDownload_error md.CIK r.AccessionNumber r.PrimaryDocument hbad] at h
    · by_cases hf : formMatches md.Form md.IncludeAmends a.Form = true
      · cases hd : parseDate a.FilingDate with
        | none =>
          simp only [aggLoop, hf, if_true, hd] at h
          exact aggLoop_malformed_stops md rest (fuel + 1) out r h hmem' hp hbad
        | some d =>
          by_cases hr : dateInRange md.After md.Before d = true
          · by_cases hsk : a.AccessionNumber ∈ md.AccessionNumbersToSkip
            · have h2 : aggLoop md rest (fuel + 1) = .ok out := by
                simpa [aggLoop, hf, hd, hr, hsk] using h
              exact aggLoop_malformed_stops md rest (fuel + 1) out r h2 hmem' hp hbad
            · cases hg : GetToDownload md.CIK a.AccessionNumber a.PrimaryDocument with
              | error e => simp [aggLoop, hf, hd, hr, hsk, hg] at h
              | ok td =>
                cases hrec : aggLoop md rest fuel with
                | error e => simp [aggLoop, hf, hd, hr, hsk, hg, hrec] at h
                | ok tds =>
                  have hout : td :: tds = out := by
                    simpa [aggLoop, hf, hd, hr, hsk, hg, hrec] using h
                  have hlen := aggLoop_malformed_stops md rest fuel tds r hrec hmem' hp hbad
                  rw [← hout]
                  simp [hlen]
          · have h2 : aggLoop md rest (fuel + 1) = .ok out := by
              simpa [aggLoop, hf, hd, hr] using h
            exact aggLoop_malformed_stops md rest (fuel + 1) out r h2 hmem' hp hbad
      · have h2 : aggLoop md rest (fuel + 1) = .ok out := by
          simpa [aggLoop, hf] using h
        exact aggLoop_malformed_stops md rest (fuel + 1) out r h2 hmem' hp hbad

/-- Claim C2: a record that passes the form, date and exclusion tests
but whose accession number does not reduce to exactly 18 digits after
hyphen removal (the concrete history row with accession number abc)
makes the whole match operation fail with the malformed-identifier
error and no partial result; and in general a passing malformed record
can never be silently omitted from a successful match — the only way
the match still returns ok is that the result limit was already filled
before the scan reached that record, so the returned list has exactly
Limit elements. -/
theorem aggregate_malformed_accession_aborts :
    (AggregateFilingsToDownload mdC2e clientC2e =
      .error "failed to get download URL for accession number abc: invalid accession number: abc") ∧
    (∀ (md : DownloadMetadata) (recent : List FilingRecord) (out : List ToDownload)
       (r : FilingRecord),
      aggLoop md recent md.Limit = .ok out → r ∈ recent → passesFilters md r = true →
      (removeDashes r.AccessionNumber).length ≠ 18 → out.length = md.Limit) :=
  ⟨by rfl,
   fun md recent out r h hmem hp hbad =>
     aggLoop_malformed_stops md recent md.Limit out r h hmem hp hbad⟩

theorem aggregate_malformed_accession_aborts_witness :
    aggLoop mdC2w recentC2w mdC2w.Limit = .ok outC2w ∧ outC2w.length = mdC2w.Limit :=
  ⟨by rfl,
   aggregate_malformed_accession_aborts.2 mdC2w recentC2w outC2w recC2bad
     (by rfl) (by decide) (by rfl) (by decide)⟩

lemma passesFilters_true_of_parts (md : DownloadMetadata) (r : FilingRecord) (d : Date)
    (hf : formMatches md.Form md.IncludeAmends r.Form = true)
    (hd : parseDate r.FilingDate = some d)
    (hr : dateInRange md.After md.Before d = true)
    (hsk : r.AccessionNumber ∉ md.AccessionNumbersToSkip) :
    passesFilters md r = true := by
  simp [passesFilters, hf, hd, hr, hsk]

lemma passesFilters_false_cases (md : DownloadMetadata) (r : FilingRecord) :
    (formMatches md.Form md.IncludeAmends r.Form = false → passesFilters md r = false) ∧
    (parseDate r.FilingDate = none → passesFilters md r = false) ∧
    (∀ d, parseDate r.FilingDate = some d → dateInRange md.After md.Before d = false →
      passesFilters md r = false) ∧
    (r.AccessionNumber ∈ md.AccessionNumbersToSkip → passesFilters md r = false) := by
  refine ⟨fun h => by simp [passesFilters, h], fun h => by simp [passesFilters, h],
    fun d hd hr => by simp [passesFilters, hd, hr], fun h => by simp [passesFilters, h]⟩

lemma aggLoop_take_filter (md : DownloadMetadata) :
    ∀ (recent : List FilingRecord),
      (∀ r ∈ recent, passesFilters md r = true → (removeDashes r.AccessionNumber).length = 18) →
      ∀ fuel : Nat,
        aggLoop md recent fuel =
          .ok (((recent.filter (passesFilters md)).take fuel).map
            (fun r => mkToDownload md.CIK r.AccessionNumber r.PrimaryDocument))
  | [], _, fuel => by simp [aggLoop_nil]
  | a :: rest, h, fuel => by
    have hrest : ∀ r ∈ rest, passesFilters md r = true →
        (removeDashes r.AccessionNumber).length = 18 :=
      fun r hr => h r (List.mem_cons_of_mem a hr)
    cases fuel with
    | zero => simp [aggLoop_fuel_zero]
    | succ f =>
      by_cases hf : formMatches md.Form md.IncludeAmends a.Form = true
      · cases hd : parseDate a.FilingDate with
        | none =>
          have hpa := (passesFilters_false_cases md a).2.1 hd
          simp only [aggLoop, hf, if_true, hd, List.filter_cons, hpa]
          simpa using aggLoop_take_filter md rest hrest (f + 1)
        | some d =>
          by_cases hr : dateInRange md.After md.Before d = true
          · by_cases hsk : a.AccessionNumber ∈ md.AccessionNumbersToSkip
            · have hpa := (passesFilters_false_cases md a).2.2.2 hsk
              have htail := aggLoop_take_filter md rest hrest (f + 1)
              simp only [List.filter_cons, hpa]
              simpa [aggLoop, hf, hd, hr, hsk] using htail
            · have hpa := passesFilters_true_of_parts md a d hf hd hr hsk
              have h18 := h a (List.mem_cons_self a rest) hpa
              have htail := aggLoop_take_filter md rest hrest f
              simp only [List.filter_cons, hpa, if_true, List.take_succ_cons, List.map_cons]
              simp [aggLoop, hf, hd, hr, hsk, getToDownload_ok md.CIK a.AccessionNumber a.PrimaryDocument h18, htail]
          · have hrf : dateInRange md.After md.Before d = false := by
              cases hx : dateInRange md.After md.Before d with
              | false => rfl
              | true => exact absurd hx hr
            have hpa := (passesFilters_false_cases md a).2.2.1 d hd hrf
            have htail := aggLoop_take_filter md rest hrest (f + 1)
            simp only [List.filter_cons, hpa]
            simpa [aggLoop, hf, hd, hrf] using htail
      · have hff : formMatches md.Form md.IncludeAmends a.Form = false := by
          cases hx : formMatches md.Form md.IncludeAmends a.Form with
          | false => rfl
          | true => exact absurd hx hf
        have hpa := (passesFilters_false_cases md a).1 hff
        have htail := aggLoop_take_filter md rest hrest (f + 1)
        simp only [List.filter_cons, hpa]
        simpa [aggLoop, hff] using htail

/-- Claim C6: the matcher scans the history in order and stops as soon
as the limit is filled: whenever descriptor construction succeeds for
every record that passes the filters, the output is exactly the first
min(Limit, number of matching records) matching records in history
order, as descriptors. -/
theorem matcher_limit_first_matches (md : DownloadMetadata) (recent : List FilingRecord)
    (h : ∀ r ∈ recent, passesFilters md r = true →
      (removeDashes r.AccessionNumber).length = 18) :
    aggLoop md recent md.Limit =
      .ok (((recent.filter (passesFilters md)).take md.Limit).map
        (fun r => mkToDownload md.CIK r.AccessionNumber r.PrimaryDocument)) :=
  aggLoop_take_filter md recent h md.Limit

theorem matcher_limit_first_matches_witness :
    aggLoop mdC6w recentC6w mdC6w.Limit =
      .ok [mkToDownload "0000320193" "0000320193-22-000001" "a1.htm",
           mkToDownload "0000320193" "0000320193-23-000002" "a2.htm"] ∧
    ((recentC6w.filter (passesFilters mdC6w)).take mdC6w.Limit).length = 2 := by
  have h := matcher_limit_first_matches mdC6w recentC6w (by decide)
  rw [h]
  exact ⟨by rfl, by decide⟩

lemma downloadLoop_eq_countP (md : DownloadMetadata) (client : SECClient)
    (save : List Nat → String → Except String Unit) :
    ∀ tds : List ToDownload,
      downloadLoop md client save tds = tds.countP (indexFetchAndSaveOk md client save)
  | [] => rfl
  | td :: rest => by
    rw [List.countP_cons]
    cases h1 : client.DownloadFiling td.RawFilingURI with
    | error e =>
      simp [downloadLoop, indexFetchAndSaveOk, h1, downloadLoop_eq_countP md client save rest]
    | ok contents =>
      cases h2 : save contents
          (GetSaveLocation md td.AccessionNumber FilingFullSubmissionFilename) with
      | error e =>
        simp [downloadLoop, indexFetchAndSaveOk, h1, h2,
          downloadLoop_eq_countP md client save rest]
      | ok u =>
        simp [downloadLoop, indexFetchAndSaveOk, h1, h2,
          downloadLoop_eq_countP md client save rest]

/-- Claim C1: whenever the matcher produced a non-empty batch of
descriptors, FetchAndSaveFilings never raises an error for the batch:
a filing whose index fetch or persist fails is skipped, the loop
continues, and the returned count is exactly the number of filings
whose index document was fetched and persisted successfully. -/
theorem fetchAndSaveFilings_partial_failure_tolerant (md : DownloadMetadata)
    (client : SECClient) (save : List Nat → String → Except String Unit)
    (tds : List ToDownload) (hagg : AggregateFilingsToDownload md client = .ok tds)
    (_hne : tds ≠ []) :
    FetchAndSaveFilings md client save =
      .ok (tds.countP (indexFetchAndSaveOk md client save)) := by
  unfold FetchAndSaveFilings
  rw [hagg]
  simp [downloadLoop_eq_countP]

theorem fetchAndSaveFilings_partial_failure_tolerant_witness :
    FetchAndSaveFilings mdC1w clientC1w saveAlwaysOk = .ok 2 := by
  have h := fetchAndSaveFilings_partial_failure_tolerant mdC1w clientC1w saveAlwaysOk tdsC1w
    (by rfl) (by decide)
  rw [h]
  rfl

lemma digitsToNatAux_nil (acc : Nat) : digitsToNatAux acc [] = acc := rfl

lemma digitsToNatAux_cons (acc : Nat) (c : Char) (cs : List Char) :
    digitsToNatAux acc (c :: cs) = digitsToNatAux (acc * 10 + (c.toNat - 48)) cs := rfl

lemma digitsToNatAux_lt (cs : List Char) : ∀ (acc : Nat), cs.all isDigitCh = true →
    digitsToNatAux acc cs < (acc + 1) * 10 ^ cs.length := by
  induction cs with
  | nil =>
    intro acc _
    rw [digitsToNatAux_nil]
    simp
  | cons c cs ih =>
    intro acc hall
    have hparts : isDigitCh c = true ∧ cs.all isDigitCh = true := by
      simpa [List.all_cons] using hall
    have hd : c.toNat - 48 ≤ 9 := by
      have := hparts.1
      simp [isDigitCh] at this
      omega
    calc digitsToNatAux acc (c :: cs)
        = digitsToNatAux (acc * 10 + (c.toNat - 48)) cs := digitsToNatAux_cons acc c cs
      _ < (acc * 10 + (c.toNat - 48) + 1) * 10 ^ cs.length :=
          ih (acc * 10 + (c.toNat - 48)) hparts.2
      _ ≤ ((acc + 1) * 10) * 10 ^ cs.length := Nat.mul_le_mul_right _ (by omega)
      _ = (acc + 1) * 10 ^ (c :: cs).length := by
          simp [List.length_cons]
          ring

lemma digitsToNat_lt (cs : List Char) (hall : cs.all isDigitCh = true) :
    digitsToNat cs < 10 ^ cs.length := by
  have := digitsToNatAux_lt cs 0 hall
  simpa [digitsToNat] using this

lemma isCIK_of_short_digits (t : String) (hne : t.data ≠ [])
    (hall : t.data.all isDigitCh = true) (hlen : t.data.length ≤ 10) :
    IsCIK t = true := by
  unfold IsCIK atoi
  cases ht : t.data with
  | nil => exact absurd ht hne
  | cons c rest =>
    have hparts : isDigitCh c = true ∧ rest.all isDigitCh = true := by
      rw [ht] at hall
      simpa [List.all_cons] using hall
    have hcp : ¬ c = '+' := by
      intro h
      rw [h] at hparts
      exact absurd hparts.1 (by decide)
    have hcm : ¬ c = '-' := by
      intro h
      rw [h] at hparts
      exact absurd hparts.1 (by decide)
    have hsome : atoiDigits (c :: rest) = some (digitsToNat (c :: rest)) := by
      rw [ht] at hall
      simp [atoiDigits, hall, digitsToNat]
    have hbound : digitsToNat (c :: rest) ≤ int64MaxNat := by
      have h1 : digitsToNat (c :: rest) < 10 ^ (c :: rest).length := by
        rw [ht] at hall
        exact digitsToNat_lt (c :: rest) hall
      have h2 : (c :: rest).length ≤ 10 := by
        rw [ht] at hlen
        exact hlen
      have h3 : (10 : Nat) ^ (c :: rest).length ≤ 10 ^ 10 :=
        Nat.pow_le_pow_right (by norm_num) h2
      have h4 : (10 : Nat) ^ 10 ≤ int64MaxNat + 1 := by norm_num [int64MaxNat]
      omega
    simp [ht, hcp, hcm, hsome, hbound]

lemma stringNe_of_dataNe (t : String) (h : t.data ≠ []) : t ≠ "" := by
  intro he
  rw [he] at h
  exact h rfl

lemma dataNe_of_stringNe (t : String) (h : t ≠ "") : t.data ≠ [] := by
  intro he
  apply h
  cases t
  simp at he
  simp [he]

/-- Claim C7: identifier resolution on numeric input — blank (or
all-whitespace) input fails with the invalid-identifier error; input
that trims and upper-cases to a digit string of at most 10 characters
resolves to that string left-zero-padded to exactly 10 characters; a
digit string longer than 10 characters that the numeric detector
accepts fails with the invalid-identifier error.  All three hold for
every symbol mapping. -/
theorem resolve_numeric_key :
    (∀ (s : String) (mapping : List (String × String)), trimSpace (upStr s) = "" →
      ValidateAndConvertTickerOrCIK s mapping =
        .error "invalid ticker or CIK: please enter a non-blank value") ∧
    (∀ (s : String) (mapping : List (String × String)),
      (trimSpace (upStr s)).data.all isDigitCh = true → trimSpace (upStr s) ≠ "" →
      (trimSpace (upStr s)).length ≤ 10 →
      ValidateAndConvertTickerOrCIK s mapping = .ok (zeroPad10 (trimSpace (upStr s))) ∧
      (zeroPad10 (trimSpace (upStr s))).length = 10) ∧
    (∀ (s : String) (mapping : List (String × String)),
      IsCIK (trimSpace (upStr s)) = true → (trimSpace (upStr s)).length > 10 →
      ValidateAndConvertTickerOrCIK s mapping =
        .error "invalid CIK: CIKs must be at most 10 digits long") := by
  refine ⟨?_, ?_, ?_⟩
  · intro s mapping h
    unfold ValidateAndConvertTickerOrCIK
    simp [h]
  · intro s mapping hall hne hlen
    have hlen' : (trimSpace (upStr s)).data.length ≤ 10 := hlen
    have hcik := isCIK_of_short_digits (trimSpace (upStr s))
      (dataNe_of_stringNe _ hne) hall hlen'
    constructor
    · unfold ValidateAndConvertTickerOrCIK
      simp [hne, hcik, CIKLength, Nat.not_lt.mpr hlen]
    · have : (zeroPad10 (trimSpace (upStr s))).data.length = 10 := by
        simp [zeroPad10]
        omega
      exact this
  · intro s mapping hcik hlen
    have hne : trimSpace (upStr s) ≠ "" := by
      intro he
      rw [he] at hlen
      simp [String.length] at hlen
    unfold ValidateAndConvertTickerOrCIK
    simp [hne, hcik, CIKLength, hlen]

theorem resolve_numeric_key_witness :
    ValidateAndConvertTickerOrCIK "320193" [] = .ok "0000320193" ∧
    ValidateAndConvertTickerOrCIK "12345678901" [] =
      .error "invalid CIK: CIKs must be at most 10 digits long" ∧
    ValidateAndConvertTickerOrCIK "   " [] =
      .error "invalid ticker or CIK: please enter a non-blank value" :=
  ⟨(resolve_numeric_key.2.1 "320193" [] (by decide) (by decide) (by decide)).1,
   resolve_numeric_key.2.2 "12345678901" [] (by decide) (by decide),
   resolve_numeric_key.1 "   " [] (by decide)⟩

/-- Claim C8 counterexample: for the non-empty primary-document filename
report.xml, the descriptor's details-document suffix is empty while the
filename's file extension is .xml, so the suffix does not equal the
extension. -/
theorem getToDownload_details_suffix_cex :
    GetToDownload "0000320193" "0000320193-24-000123" "report.xml" =
      .ok (mkToDownload "0000320193" "0000320193-24-000123" "report.xml") ∧
    (mkToDownload "0000320193" "0000320193-24-000123" "report.xml").DetailsDocSuffix = "" ∧
    filepathExt "report.xml" = ".xml" ∧ ("" : String) ≠ ".xml" :=
  ⟨by rfl, by rfl, by rfl, by decide⟩

/-- Claim C8 as amended: for every descriptor construction with a
well-formed accession number, an empty primary-document filename yields
an empty primary-document URI and an empty details-document suffix;
for a non-empty filename the details-document suffix is not the file
extension but the index-headers rule: the fixed suffix
-index-headers.html when the filename is primary-document.html
case-insensitively, the filename stripped of a case-sensitive .htm then
.html suffix followed by -index-headers.html when the filename ends
case-insensitively in .htm or .html, and empty otherwise. -/
theorem getToDownload_details_suffix_amended (cik accNum doc : String)
    (h : (removeDashes accNum).length = 18) :
    GetToDownload cik accNum doc = .ok (mkToDownload cik accNum doc) ∧
    (doc = "" → (mkToDownload cik accNum "").PrimaryDocURI = "" ∧
      (mkToDownload cik accNum "").DetailsDocSuffix = "") ∧
    (eqFold doc "primary-document.html" = true →
      (mkToDownload cik accNum doc).DetailsDocSuffix = "-index-headers.html") ∧
    (eqFold doc "primary-document.html" = false →
      (strEndsWith (lowStr doc) ".htm" || strEndsWith (lowStr doc) ".html") = true →
      (mkToDownload cik accNum doc).DetailsDocSuffix =
        trimSuffix (trimSuffix doc ".htm") ".html" ++ "-index-headers.html") ∧
    (eqFold doc "primary-document.html" = false →
      (strEndsWith (lowStr doc) ".htm" || strEndsWith (lowStr doc) ".html") = false →
      (mkToDownload cik accNum doc).DetailsDocSuffix = "") := by
  refine ⟨getToDownload_ok cik accNum doc h, ?_, ?_, ?_, ?_⟩
  · intro hdoc
    exact ⟨rfl, rfl⟩
  · intro hpd
    simp [mkToDownload, detailsDocSuffixOf, hpd]
  · intro hpd hext
    simp [mkToDownload, detailsDocSuffixOf, hpd, hext]
  · intro hpd hext
    simp [mkToDownload, detailsDocSuffixOf, hpd, hext]

theorem getToDownload_details_suffix_amended_witness :
    GetToDownload "0000320193" "0000320193-24-000123" "report.htm" =
      .ok (mkToDownload "0000320193" "0000320193-24-000123" "report.htm") ∧
    (mkToDownload "0000320193" "0000320193-24-000123" "report.htm").DetailsDocSuffix =
      "report-index-headers.html" :=
  ⟨(getToDownload_details_suffix_amended "0000320193" "0000320193-24-000123" "report.htm"
      (by decide)).1,
   by rfl⟩

/-- Claim C9: GetWithOptions rejects a form outside the supported-forms
set up front, for every downloader state, save collaborator, identifier
and option list alike — so neither identifier resolution nor any
network response can influence the outcome — and the gate is an exact
case-sensitive lookup: 10-k is rejected even though 10-K is supported
and the matcher's own form comparison treats 10-k and 10-K alike. -/
theorem getWithOptions_unsupported_form_gate :
    (∀ (d : Downloader) (save : List Nat → String → Except String Unit)
       (form tickerOrCIK : String) (options : List DownloadOption),
      SupportedForms form = false →
      GetWithOptions d save form tickerOrCIK options =
        .error ("form " ++ form ++ " is not supported")) ∧
    SupportedForms "10-k" = false ∧ SupportedForms "10-K" = true ∧
    eqFold "10-k" "10-K" = true := by
  refine ⟨?_, by decide, by decide, by decide⟩
  intro d save form tickerOrCIK options h
  unfold GetWithOptions
  simp [h]

theorem getWithOptions_unsupported_form_gate_witness :
    GetWithOptions downloaderC9w saveAlwaysOk "10-k" "AAPL" [] =
      .error "form 10-k is not supported" :=
  getWithOptions_unsupported_form_gate.1 downloaderC9w saveAlwaysOk "10-k" "AAPL" []
    (by decide)

lemma withDateRange_both_invalid (s1 s2 : String) (h1 : parseDate s1 = none)
    (h2 : parseDate s2 = none) :
    WithDateRange (some (.stringValue s1)) (some (.stringValue s2)) =
      WithDateRange none none := by
  funext md
  simp [WithDateRange, ValidateAndParseDate, h1, h2]

/-- Claim C10: a date bound handed to WithDateRange that is a string
not in YYYY-MM-DD format, or a value of an unsupported type, is
silently ignored: the corresponding After or Before field keeps its
previous value, no error is surfaced (the option returns a plain
metadata value), and the legacy Get call with two such bounds behaves
exactly as the same call with no bounds supplied. -/
theorem withDateRange_invalid_input_keeps_bounds :
    (∀ (md : DownloadMetadata) (s : String) (b : Option DateInput), parseDate s = none →
      (WithDateRange (some (.stringValue s)) b md).After = md.After) ∧
    (∀ (md : DownloadMetadata) (a : Option DateInput) (s : String), parseDate s = none →
      (WithDateRange a (some (.stringValue s)) md).Before = md.Before) ∧
    (∀ (md : DownloadMetadata) (b : Option DateInput),
      (WithDateRange (some .otherValue) b md).After = md.After) ∧
    (∀ (md : DownloadMetadata) (a : Option DateInput),
      (WithDateRange a (some .otherValue) md).Before = md.Before) ∧
    (∀ (d : Downloader) (save : List Nat → String → Except String Unit)
       (form tickerOrCIK : String) (limit : Int) (s1 s2 : String)
       (includeAmends downloadDetails : Bool) (skip : Option (List String)),
      parseDate s1 = none → parseDate s2 = none →
      Get d save form tickerOrCIK limit (some (.stringValue s1)) (some (.stringValue s2))
          includeAmends downloadDetails skip =
        Get d save form tickerOrCIK limit none none includeAmends downloadDetails skip) := by
  have hstr : ∀ s : String, parseDate s = none →
      ValidateAndParseDate (.stringValue s) =
        .error "incorrect date format: please enter a date string of the form YYYY-MM-DD" :=
    fun s h => by simp [ValidateAndParseDate, h]
  have hoth : ValidateAndParseDate .otherValue =
      .error "incorrect date input: must be of type string or time.Time" := rfl
  refine ⟨?_, ?_, ?_, ?_, ?_⟩
  · intro md s b h
    cases b with
    | none => simp [WithDateRange, hstr s h]
    | some bi =>
      cases hb : ValidateAndParseDate bi with
      | ok dv => simp [WithDateRange, hstr s h, hb]
      | error e => simp [WithDateRange, hstr s h, hb]
  · intro md a s h
    cases a with
    | none => simp [WithDateRange, hstr s h]
    | some ai =>
      cases ha : ValidateAndParseDate ai with
      | ok dv => simp [WithDateRange, hstr s h, ha]
      | error e => simp [WithDateRange, hstr s h, ha]
  · intro md b
    cases b with
    | none => simp [WithDateRange, hoth]
    | some bi =>
      cases hb : ValidateAndParseDate bi with
      | ok dv => simp [WithDateRange, hoth, hb]
      | error e => simp [WithDateRange, hoth, hb]
  · intro md a
    cases a with
    | none => simp [WithDateRange, hoth]
    | some ai =>
      cases ha : ValidateAndParseDate ai with
      | ok dv => simp [WithDateRange, hoth, ha]
      | error e => simp [WithDateRange, hoth, ha]
  · intro d save form tickerOrCIK limit s1 s2 includeAmends downloadDetails skip h1 h2
    unfold Get
    rw [withDateRange_both_invalid s1 s2 h1 h2]

theorem withDateRange_invalid_input_keeps_bounds_witness :
    (WithDateRange (some (.stringValue "invalid-date"))
      (some (.stringValue "13-01-2022")) mdC10w).After = mdC10w.After ∧
    (WithDateRange (some (.stringValue "invalid-date"))
      (some (.stringValue "13-01-2022")) mdC10w).Before = mdC10w.Before :=
  ⟨withDateRange_invalid_input_keeps_bounds.1 mdC10w "invalid-date"
      (some (.stringValue "13-01-2022")) (by rfl),
   withDateRange_invalid_input_keeps_bounds.2.1 mdC10w
      (some (.stringValue "invalid-date")) "13-01-2022" (by rfl)⟩
